import Mathlib

/-!
Verification of the resumable step-execution engine of the
openshift-sts-wrapper repository, as a shallow embedding in Lean 4.

The embedding models:
  * the path helpers of pkg/util (joinPath mirrors filepath.Join on the
    simple relative components used by the code),
  * the read-only filesystem predicates of pkg/util (FileExists, DirExists,
    DirExistsWithFiles, FileContains and the hand-written contains helper),
  * the completion detector pkg/steps/detector.go (ShouldSkipStep),
  * the in-place install-config mutation of Step5SetCredentialsMode
    (pkg/steps/steps.go) over a generic YAML document value,
  * the write paths of the extraction steps 1 to 3 (pkg/steps/steps.go),
  * the step loop of the install command (runInstall), with the external
    decisions (construction result, detector answer, confirmation answer,
    execution result) supplied as oracle inputs,
  * Step7CreateAWSResources and Step9CopyTLS (pkg/steps/steps_aws.go) with
    external command results supplied as oracles.

A filesystem is modelled as three total functions returning Option values:
None models every kind of error (missing path, permission error), mirroring
that the Go code only distinguishes err == nil from err != nil.
-/

namespace StsWrapper

/-- Mirror of filepath.Join for the plain relative components used by the
repository: empty components are dropped and the rest are joined with
slashes. -/
def joinPath (parts : List String) : String :=
  String.intercalate "/" (parts.filter (fun p => p ≠ ""))

/-- util.GetSharedBinaryPath: artifacts/shared/(versionArch)/bin/(binaryName). -/
def GetSharedBinaryPath (versionArch binaryName : String) : String :=
  joinPath ["artifacts", "shared", versionArch, "bin", binaryName]

/-- util.GetSharedCredReqsPath: artifacts/shared/(versionArch)/credreqs. -/
def GetSharedCredReqsPath (versionArch : String) : String :=
  joinPath ["artifacts", "shared", versionArch, "credreqs"]

/-- util.GetClusterPath: artifacts/clusters/(clusterName)/(subpath). -/
def GetClusterPath (clusterName subpath : String) : String :=
  joinPath ["artifacts", "clusters", clusterName, subpath]

/-- util.GetInstallConfigPath: artifacts/clusters/(clusterName)/install-config.yaml. -/
def GetInstallConfigPath (versionArch clusterName : String) : String :=
  joinPath ["artifacts", "clusters", clusterName, "install-config.yaml"]

/-- util.GetBinaryPath (deprecated legacy helper): artifacts/(versionArch)/bin/(binaryName). -/
def GetBinaryPath (versionArch binaryName : String) : String :=
  joinPath ["artifacts", versionArch, "bin", binaryName]

/-- util.GetCredReqsPath (deprecated legacy helper): artifacts/(versionArch)/credreqs. -/
def GetCredReqsPath (versionArch : String) : String :=
  joinPath ["artifacts", versionArch, "credreqs"]

/-- Abstract filesystem state. stat returns the IsDir bit on success and
none on any error; readDir returns the entry names of a directory or none
on error; readFile returns the content of a file or none on error. -/
structure FS where
  stat : String → Option Bool
  readDir : String → Option (List String)
  readFile : String → Option String

/-- The filesystem on which every inspection fails (everything missing or
unreadable). -/
def fsErr : FS :=
  { stat := fun _ => none, readDir := fun _ => none, readFile := fun _ => none }

/-- util.FileExists: stat succeeds and the path is not a directory. -/
def FileExists (fs : FS) (path : String) : Bool :=
  match fs.stat path with
  | none => false
  | some isDir => !isDir

/-- util.DirExists: stat succeeds and the path is a directory. -/
def DirExists (fs : FS) (path : String) : Bool :=
  match fs.stat path with
  | none => false
  | some isDir => isDir

/-- util.DirExistsWithFiles: stat succeeds on a directory, reading the
directory succeeds, and it has at least one entry. -/
def DirExistsWithFiles (fs : FS) (path : String) : Bool :=
  match fs.stat path with
  | none => false
  | some isDir =>
    if !isDir then false
    else
      match fs.readDir path with
      | none => false
      | some entries => decide (0 < entries.length)

/-- The inner loop of the util contains helper: checks every window of the
haystack of the needle length. -/
def goContainsSubstring (haystack needle : List Char) : Bool :=
  (List.range (haystack.length - needle.length + 1)).any
    (fun i => decide ((haystack.drop i).take needle.length = needle))

/-- The hand-written util contains helper, translated clause by clause:
a non-empty haystack, a non-empty needle, haystack different from needle,
and then either equality (dead code under the previous clause) or a strictly
longer haystack with the needle as leading slice, trailing slice or inner
window. -/
def goContains (haystack needle : String) : Bool :=
  decide (0 < haystack.toList.length) && decide (0 < needle.toList.length) &&
    decide (haystack.toList ≠ needle.toList) &&
    (decide (haystack.toList = needle.toList) ||
      (decide (needle.toList.length < haystack.toList.length) &&
        (decide (haystack.toList.take needle.toList.length = needle.toList) ||
          decide (haystack.toList.drop
            (haystack.toList.length - needle.toList.length) = needle.toList) ||
          goContainsSubstring haystack.toList needle.toList)))

/-- util.FileContains: the file is readable and its content passes the
contains helper. -/
def FileContains (fs : FS) (path needle : String) : Bool :=
  match fs.readFile path with
  | none => false
  | some content => goContains content needle

/-- The fields of config.Config consumed by the engine. Numeric fields use
Int, matching the Go int type. -/
structure Config where
  ReleaseImage : String
  ClusterName : String
  AwsRegion : String
  AwsProfile : String
  PullSecretPath : String
  PrivateBucket : Bool
  StartFromStep : Int
  ConfirmEachStep : Bool
  InstanceType : String

/-- Detector.ShouldSkipStep from pkg/steps/detector.go: the resume override
wins when set, otherwise a per-step on-disk predicate decides; steps 10 and
11 and unknown step numbers are never skipped by detection. -/
def ShouldSkipStep (cfg : Config) (versionArch : String) (fs : FS) (stepNum : Int) : Bool :=
  if 0 < cfg.StartFromStep ∧ stepNum < cfg.StartFromStep then true
  else if stepNum = 1 then DirExistsWithFiles fs (GetSharedCredReqsPath versionArch)
  else if stepNum = 2 then FileExists fs (GetSharedBinaryPath versionArch "openshift-install")
  else if stepNum = 3 then FileExists fs (GetSharedBinaryPath versionArch "ccoctl")
  else if stepNum = 4 then FileExists fs (GetInstallConfigPath versionArch cfg.ClusterName)
  else if stepNum = 5 then
    FileContains fs (GetInstallConfigPath versionArch cfg.ClusterName) "credentialsMode: Manual"
  else if stepNum = 6 then
    DirExistsWithFiles fs (GetClusterPath cfg.ClusterName "ccoctl-output/manifests")
  else if stepNum = 7 then
    DirExistsWithFiles fs (GetClusterPath cfg.ClusterName "ccoctl-output/manifests") &&
      DirExistsWithFiles fs (GetClusterPath cfg.ClusterName "ccoctl-output/tls")
  else if stepNum = 8 then
    !DirExistsWithFiles fs (GetClusterPath cfg.ClusterName "ccoctl-output/manifests")
  else if stepNum = 9 then
    !DirExistsWithFiles fs (GetClusterPath cfg.ClusterName "ccoctl-output/tls")
  else if stepNum = 10 then false
  else if stepNum = 11 then false
  else false

/-- A concrete configuration used by closed witnesses. -/
def cfgDemo : Config :=
  { ReleaseImage := "quay.io/test:4.12.0-x86_64"
    ClusterName := "demo"
    AwsRegion := "us-east-2"
    AwsProfile := "default"
    PullSecretPath := "pull-secret.json"
    PrivateBucket := false
    StartFromStep := 0
    ConfirmEachStep := false
    InstanceType := "m5.4xlarge" }

/-- cfgDemo with the resume override set to step 5. -/
def cfgResume5 : Config := { cfgDemo with StartFromStep := 5 }

end StsWrapper

namespace StsWrapper

/-- Claim C1: for every step index between 1 and 11 and every filesystem
state, if the resume override StartFromStep is positive and the index is
strictly below it, ShouldSkipStep returns true; the filesystem is
universally quantified, so no on-disk predicate is consulted. -/
theorem shouldSkip_resume_override (cfg : Config) (versionArch : String) (fs : FS)
    (i : Int) (h1 : 1 ≤ i) (h11 : i ≤ 11)
    (hpos : 0 < cfg.StartFromStep) (hlt : i < cfg.StartFromStep) :
    ShouldSkipStep cfg versionArch fs i = true := by
  unfold ShouldSkipStep
  rw [if_pos ⟨hpos, hlt⟩]

/-- Witness for C1: step 4 with override 5 on the all-error filesystem. -/
theorem shouldSkip_resume_override_witness :
    1 ≤ (4 : Int) ∧ (4 : Int) ≤ 11 ∧ 0 < cfgResume5.StartFromStep ∧
      (4 : Int) < cfgResume5.StartFromStep ∧
      ShouldSkipStep cfgResume5 "4.12.0-x86_64" fsErr 4 = true :=
  ⟨by decide, by decide, by decide, by decide,
    shouldSkip_resume_override cfgResume5 "4.12.0-x86_64" fsErr 4
      (by decide) (by decide) (by decide) (by decide)⟩

/-- A path is in error state when stat fails outright or the path stats as
a directory whose listing fails: this covers both a missing path and an
unreadable directory. -/
def ErrPath (fs : FS) (p : String) : Prop :=
  fs.stat p = none ∨ (fs.stat p = some true ∧ fs.readDir p = none)

theorem fileExists_of_errPath {fs : FS} {p : String} (h : ErrPath fs p) :
    FileExists fs p = false := by
  rcases h with h | ⟨h, _⟩ <;> simp [FileExists, h]

theorem dirExistsWithFiles_of_errPath {fs : FS} {p : String} (h : ErrPath fs p) :
    DirExistsWithFiles fs p = false := by
  rcases h with h | ⟨h1, h2⟩ <;> simp [DirExistsWithFiles, *]

theorem fileContains_of_readErr {fs : FS} {p : String} (h : fs.readFile p = none)
    (s : String) : FileContains fs p s = false := by
  simp [FileContains, h]

/-- Counterexample to claim C2: on the filesystem where every inspection
fails (so the staging directory is missing), step 8 is reported as skipped
(true), not as incomplete (false), because its predicate is inverted. -/
theorem shouldSkip_error_fs_counterexample :
    ShouldSkipStep cfgDemo "4.12.0-x86_64" fsErr 8 = true := by
  decide

set_option maxHeartbeats 1000000 in
/-- Claim C2 amended: when every path the detector inspects is missing or
unreadable and the resume override is not set, ShouldSkipStep reports false
(not skipped) for every step except the inverted-existence steps 8 and 9,
which report true precisely because their staging directory is absent. -/
theorem shouldSkip_error_fs (cfg : Config) (versionArch : String) (fs : FS) (i : Int)
    (hov : cfg.StartFromStep ≤ 0)
    (hstat : ∀ p, ErrPath fs p)
    (hread : ∀ p, fs.readFile p = none) :
    ShouldSkipStep cfg versionArch fs i = true ↔ i = 8 ∨ i = 9 := by
  have hov' : ¬ (0 < cfg.StartFromStep ∧ i < cfg.StartFromStep) := by
    rintro ⟨h1, _⟩; omega
  have hfe : ∀ p, FileExists fs p = false := fun p => fileExists_of_errPath (hstat p)
  have hdw : ∀ p, DirExistsWithFiles fs p = false :=
    fun p => dirExistsWithFiles_of_errPath (hstat p)
  have hfc : ∀ p s, FileContains fs p s = false :=
    fun p s => fileContains_of_readErr (hread p) s
  unfold ShouldSkipStep
  rw [if_neg hov']
  split_ifs <;>
      simp only [hfe, hdw, hfc, Bool.and_self, Bool.not_false, Bool.false_eq_true,
        false_iff, true_iff, not_or] <;>
    omega

/-- Witness for the amended C2: concrete configuration, the all-error
filesystem, and step 8. -/
theorem shouldSkip_error_fs_witness :
    cfgDemo.StartFromStep ≤ 0 ∧
      (ShouldSkipStep cfgDemo "4.12.0-x86_64" fsErr 8 = true ↔ (8 : Int) = 8 ∨ (8 : Int) = 9) :=
  ⟨by decide,
    shouldSkip_error_fs cfgDemo "4.12.0-x86_64" fsErr 8 (by decide)
      (fun _ => Or.inl rfl) (fun _ => rfl)⟩

/-! Write targets of the extraction steps, taken from pkg/steps/steps.go.
Step1 extracts the credential requests to util.GetCredReqsPath, Step2
extracts the openshift-install binary into filepath.Join((artifacts),
versionArch, (bin)), and Step3 moves ccoctl into the same bin directory:
all three use the legacy unshared layout. -/

/-- The directory Step1ExtractCredReqs passes to the external extraction
tool (the to flag): util.GetCredReqsPath of the version key. -/
def step1OutputDir (versionArch : String) : String :=
  GetCredReqsPath versionArch

/-- The bin directory Step2ExtractOpenshiftInstall creates and extracts
into. -/
def step2BinDir (versionArch : String) : String :=
  joinPath ["artifacts", versionArch, "bin"]

/-- The path of the openshift-install binary after Step2 runs. -/
def step2InstallBinPath (versionArch : String) : String :=
  joinPath [step2BinDir versionArch, "openshift-install"]

/-- The path Step3ExtractCcoctl moves the extracted ccoctl binary to. -/
def step3CcoctlPath (versionArch : String) : String :=
  joinPath [step2BinDir versionArch, "ccoctl"]

/-- Effect of writing one regular file at a path: stat now reports a
non-directory and the content is readable; every other path is unchanged.
(Parent directory creation is irrelevant to the claims proved here.) -/
def FS.writeFile (fs : FS) (p content : String) : FS :=
  { stat := fun q => if q = p then some false else fs.stat q
    readDir := fs.readDir
    readFile := fun q => if q = p then some content else fs.readFile q }

/-- Claim C3 is violated by the code: the extraction steps 1 to 3 write to
the legacy artifacts/(versionArch) layout while the detector inspects the
artifacts/shared/(versionArch) layout, so at version key 4.12.0-x86_64 all
three write paths differ from the inspected paths, and after Step2 writes
its binary on an otherwise empty filesystem the detector still reports
step 2 as not completed. -/
theorem step_write_paths_escape_detector :
    step1OutputDir "4.12.0-x86_64" ≠ GetSharedCredReqsPath "4.12.0-x86_64" ∧
      step2InstallBinPath "4.12.0-x86_64" ≠
        GetSharedBinaryPath "4.12.0-x86_64" "openshift-install" ∧
      step3CcoctlPath "4.12.0-x86_64" ≠ GetSharedBinaryPath "4.12.0-x86_64" "ccoctl" ∧
      ShouldSkipStep cfgDemo "4.12.0-x86_64"
        (FS.writeFile fsErr (step2InstallBinPath "4.12.0-x86_64") "binary") 2 = false := by
  refine ⟨by decide, by decide, by decide, ?_⟩
  decide

/-- The contains helper of pkg/util rejects a haystack equal to the needle:
the third clause of its conjunction requires them to differ, so the
equality disjunct after it is dead code. -/
theorem goContains_self_eq_false (s : String) : goContains s s = false := by
  unfold goContains
  have hd : decide (s.toList ≠ s.toList) = false := by simp
  rw [hd]
  simp only [Bool.and_false, Bool.false_and]

/-- Claim C9: a readable file whose whole content equals the non-empty
needle fails FileContains, and consequently the step-5 detection predicate
does not skip when the install-config content is exactly the marker
credentialsMode: Manual. -/
theorem fileContains_whole_content (fs : FS) (cfg : Config) (versionArch p s : String)
    (hs : s ≠ "") (hp : fs.readFile p = some s)
    (hms : fs.readFile (GetInstallConfigPath versionArch cfg.ClusterName) =
      some "credentialsMode: Manual")
    (hov : cfg.StartFromStep ≤ 0) :
    FileContains fs p s = false ∧ ShouldSkipStep cfg versionArch fs 5 = false := by
  constructor
  · simp [FileContains, hp, goContains_self_eq_false]
  · have hov2 : ¬ (0 < cfg.StartFromStep ∧ (5 : Int) < cfg.StartFromStep) := by
      rintro ⟨h1, _⟩; omega
    unfold ShouldSkipStep
    rw [if_neg hov2]
    rw [if_neg (by decide : ¬((5 : Int) = 1)), if_neg (by decide : ¬((5 : Int) = 2)),
      if_neg (by decide : ¬((5 : Int) = 3)), if_neg (by decide : ¬((5 : Int) = 4)),
      if_pos (rfl : (5 : Int) = 5)]
    unfold FileContains
    rw [hms]
    exact goContains_self_eq_false _

/-- A filesystem holding only the install-config file of the demo cluster,
whose whole content is exactly the step-5 marker. -/
def fsMarkerOnly : FS :=
  FS.writeFile fsErr (GetInstallConfigPath "4.12.0-x86_64" "demo") "credentialsMode: Manual"

/-! Step7CreateAWSResources and Step9CopyTLS from pkg/steps/steps_aws.go.
External effects (directory creation, the recursive copy, the recursive
delete, credential-profile resolution, the external ccoctl invocation) are
supplied as oracle booleans; the control flow around them is translated
from the source. -/

/-- The argument list Step7CreateAWSResources builds for ccoctl. -/
def step7Args (cfg : Config) (versionArch : String) : List String :=
  ["aws", "create-all",
    "--name", cfg.ClusterName,
    "--region", cfg.AwsRegion,
    "--credentials-requests-dir", GetSharedCredReqsPath versionArch,
    "--output-dir", GetClusterPath cfg.ClusterName "ccoctl-output"] ++
    (if cfg.PrivateBucket then ["--create-private-s3-bucket"] else [])

/-- Observable outcome of Step7CreateAWSResources: one of the two guard
errors, or an invocation of the external tool with its command, argument
list, whether profile credentials were injected, and its result. -/
inductive Step7Outcome where
  | errClusterName : Step7Outcome
  | errRegion : Step7Outcome
  | invoked (cmd : String) (args : List String) (withProfileEnv : Bool)
      (result : Bool) : Step7Outcome
deriving DecidableEq

/-- True iff the outcome ran the external command. -/
def Step7Outcome.isInvocation : Step7Outcome → Bool
  | .invoked _ _ _ _ => true
  | _ => false

/-- Step7CreateAWSResources.Execute: guards on an empty cluster name, then
on an empty AWS region, before resolving credentials and invoking ccoctl.
The region is taken from the configuration only; no filesystem argument
appears because the step never reads the install-config file. -/
def step7Execute (cfg : Config) (versionArch : String)
    (awsEnvOk cmdOk : Bool) : Step7Outcome :=
  if cfg.ClusterName = "" then .errClusterName
  else if cfg.AwsRegion = "" then .errRegion
  else
    Step7Outcome.invoked (GetSharedBinaryPath versionArch "ccoctl")
      (step7Args cfg versionArch) awsEnvOk cmdOk

/-- Claim C10: an empty cluster name or an empty AWS region makes
Step7CreateAWSResources fail before any external invocation; the outcome is
one of the two guard errors. -/
theorem step7_requires_name_and_region (cfg : Config) (versionArch : String)
    (awsEnvOk cmdOk : Bool) (h : cfg.ClusterName = "" ∨ cfg.AwsRegion = "") :
    (step7Execute cfg versionArch awsEnvOk cmdOk).isInvocation = false ∧
      (step7Execute cfg versionArch awsEnvOk cmdOk = .errClusterName ∨
        step7Execute cfg versionArch awsEnvOk cmdOk = .errRegion) := by
  by_cases hc : cfg.ClusterName = ""
  · simp [step7Execute, hc, Step7Outcome.isInvocation]
  · rcases h with h | h
    · exact absurd h hc
    · simp [step7Execute, hc, h, Step7Outcome.isInvocation]

/-- Witness for C10: the demo configuration with the region blanked out. -/
theorem step7_requires_name_and_region_witness :
    ({ cfgDemo with AwsRegion := "" } : Config).AwsRegion = "" ∧
      (step7Execute { cfgDemo with AwsRegion := "" } "4.12.0-x86_64" true true).isInvocation
        = false :=
  ⟨rfl,
    (step7_requires_name_and_region { cfgDemo with AwsRegion := "" } "4.12.0-x86_64"
      true true (Or.inr rfl)).1⟩

/-- Oracle results of the three external effects of Step9CopyTLS: creating
the tls destination directory, the recursive copy, and the recursive
removal of the ccoctl-output staging directory. -/
structure Step9Env where
  ensureDirOk : Bool
  copyOk : Bool
  removeOk : Bool

/-- Outcome of Step9CopyTLS: the returned error, if any, and whether a
cleanup failure was logged at debug level. -/
structure Step9Result where
  err : Option String
  cleanupFailureLogged : Bool
deriving DecidableEq

/-- Step9CopyTLS.Execute: EnsureDir on the tls destination, then copyDir
from ccoctl-output/tls; both failures return the error. The RemoveAll of
ccoctl-output runs after a successful copy and its failure is only logged,
never returned. -/
def step9Execute (e : Step9Env) : Step9Result :=
  if !e.ensureDirOk then { err := some "failed to create tls directory", cleanupFailureLogged := false }
  else if !e.copyOk then { err := some "failed to copy tls files", cleanupFailureLogged := false }
  else { err := none, cleanupFailureLogged := !e.removeOk }

/-- Claim C7: Step9CopyTLS succeeds exactly when directory creation and the
copy succeed, independent of the staging cleanup; a cleanup failure after a
successful copy is logged while the step still returns success. -/
theorem step9_cleanup_nonfatal (e : Step9Env) :
    ((step9Execute e).err = none ↔ e.ensureDirOk = true ∧ e.copyOk = true) ∧
      (step9Execute e).cleanupFailureLogged = (e.ensureDirOk && e.copyOk && !e.removeOk) := by
  rcases e with ⟨ed, cp, rm⟩
  cases ed <;> cases cp <;> cases rm <;> simp [step9Execute]

/-! The step loop of runInstall (cmd install command). Each list element
carries the oracle answers the loop consumes for that step: whether the
step factory succeeds, whether the detector reports the step as already
completed, whether the operator declines the optional confirmation, and
whether Execute succeeds. The Summary is the list of records appended by
summary.AddError and summary.AddSuccess; skipped and declined steps are
only logged and append nothing. -/

/-- Status of one Summary record. -/
inductive RecStatus where
  | success : RecStatus
  | failure : RecStatus
deriving DecidableEq

/-- One Summary record: the step number it was recorded for and whether it
was a success or an error entry. -/
structure StepRecord where
  num : Nat
  status : RecStatus
deriving DecidableEq

/-- Oracle answers consumed by the loop for one step. -/
inductive StepSim where
  | constructFail : StepSim
  | run (skipDetected declined execOk : Bool) : StepSim
deriving DecidableEq

/-- The step loop of runInstall: a construction failure appends an error
record and continues; a detector skip or a declined confirmation continues
without a record; an execution failure appends an error record and breaks;
a success appends a success record and continues. -/
def runSteps (confirmEach : Bool) : List (Nat × StepSim) → List StepRecord
  | [] => []
  | (n, StepSim.constructFail) :: rest =>
    ⟨n, RecStatus.failure⟩ :: runSteps confirmEach rest
  | (n, StepSim.run skip dec ok) :: rest =>
    if skip then runSteps confirmEach rest
    else if confirmEach && dec then runSteps confirmEach rest
    else if ok then ⟨n, RecStatus.success⟩ :: runSteps confirmEach rest
    else [⟨n, RecStatus.failure⟩]

/-- errors.Summary.HasErrors: some record is an error record. -/
def summaryHasErrors (s : List StepRecord) : Bool :=
  s.any (fun r => r.status == RecStatus.failure)

/-- The record one step contributes to the Summary, if any. -/
def recordOf (confirmEach : Bool) : Nat × StepSim → Option StepRecord
  | (n, StepSim.constructFail) => some ⟨n, RecStatus.failure⟩
  | (n, StepSim.run skip dec ok) =>
    if skip then none
    else if confirmEach && dec then none
    else if ok then some ⟨n, RecStatus.success⟩
    else some ⟨n, RecStatus.failure⟩

/-- A step whose Execute is reached and fails. -/
def execFails (confirmEach : Bool) : Nat × StepSim → Bool
  | (_, StepSim.constructFail) => false
  | (_, StepSim.run skip dec ok) => !skip && !(confirmEach && dec) && !ok

/-- On a run without execution failures the loop never breaks and the
Summary is the per-step record list. -/
theorem runSteps_eq_filterMap (confirmEach : Bool) (ss : List (Nat × StepSim))
    (h : ∀ e ∈ ss, execFails confirmEach e = false) :
    runSteps confirmEach ss = ss.filterMap (recordOf confirmEach) := by
  induction ss with
  | nil => rfl
  | cons e rest ih =>
    have he : execFails confirmEach e = false := h e (List.mem_cons_self e rest)
    have hrest : ∀ x ∈ rest, execFails confirmEach x = false :=
      fun x hx => h x (List.mem_cons_of_mem e hx)
    rcases e with ⟨n, sim⟩
    cases sim with
    | constructFail =>
      simp [runSteps, recordOf, ih hrest]
    | run skip dec ok =>
      cases skip with
      | true => simp [runSteps, recordOf, ih hrest]
      | false =>
        cases hcd : (confirmEach && dec) with
        | true => simp [runSteps, recordOf, hcd, ih hrest]
        | false =>
          cases ok with
          | true => simp [runSteps, recordOf, hcd, ih hrest]
          | false =>
            exfalso
            simp [execFails, hcd] at he

/-- Helper for the fail-fast proof: appending anything after the first
execution failure never changes the Summary, which ends at that failure. -/
theorem runSteps_break (confirmEach : Bool) (pre post : List (Nat × StepSim))
    (n : Nat) (dec : Bool)
    (hpre : ∀ e ∈ pre, execFails confirmEach e = false)
    (hdec : (confirmEach && dec) = false) :
    runSteps confirmEach (pre ++ (n, StepSim.run false dec false) :: post) =
      pre.filterMap (recordOf confirmEach) ++ [⟨n, RecStatus.failure⟩] := by
  induction pre with
  | nil => simp [runSteps, hdec]
  | cons e rest ih =>
    have he : execFails confirmEach e = false := hpre e (List.mem_cons_self e rest)
    have hrest : ∀ x ∈ rest, execFails confirmEach x = false :=
      fun x hx => hpre x (List.mem_cons_of_mem e hx)
    rcases e with ⟨m, sim⟩
    cases sim with
    | constructFail =>
      simp [runSteps, recordOf, ih hrest]
    | run skip dec2 ok =>
      cases skip with
      | true => simp [runSteps, recordOf, ih hrest]
      | false =>
        cases hcd : (confirmEach && dec2) with
        | true => simp [runSteps, recordOf, hcd, ih hrest]
        | false =>
          cases ok with
          | true => simp [runSteps, recordOf, hcd, ih hrest]
          | false =>
            exfalso
            simp [execFails, hcd] at he

/-- Claim C4 amended: when step n is the first step whose Execute fails
(its confirmation was not declined and no earlier step failed execution),
the Summary is exactly the per-step records of the earlier steps, where a
successfully executed step contributes a success record, a construction
failure contributes an error record and a skipped or declined step
contributes nothing, followed by the failure record of step n; nothing
after step n runs or is recorded, and the run exits non-zero. -/
theorem runSteps_fail_fast (confirmEach : Bool) (pre post : List (Nat × StepSim))
    (n : Nat) (dec : Bool)
    (hpre : ∀ e ∈ pre, execFails confirmEach e = false)
    (hdec : (confirmEach && dec) = false) :
    runSteps confirmEach (pre ++ (n, StepSim.run false dec false) :: post) =
        pre.filterMap (recordOf confirmEach) ++ [⟨n, RecStatus.failure⟩] ∧
      summaryHasErrors
        (runSteps confirmEach (pre ++ (n, StepSim.run false dec false) :: post)) = true := by
  have h := runSteps_break confirmEach pre post n dec hpre hdec
  refine ⟨h, ?_⟩
  rw [h]
  simp [summaryHasErrors]

/-- The eleven-step demo run in which step 1 succeeds, step 2 fails
execution, and the remaining steps would succeed if reached. -/
def demoRun : List (Nat × StepSim) :=
  [(1, StepSim.run false false true), (2, StepSim.run false false false),
    (3, StepSim.run false false true), (4, StepSim.run false false true),
    (5, StepSim.run false false true), (6, StepSim.run false false true),
    (7, StepSim.run false false true), (8, StepSim.run false false true),
    (9, StepSim.run false false true), (10, StepSim.run false false true),
    (11, StepSim.run false false true)]

/-- Witness for the amended C4: the demo run halts at step 2 with exactly
the step-1 success record before the failure record. -/
theorem runSteps_fail_fast_witness :
    (∀ e ∈ [((1 : Nat), StepSim.run false false true)], execFails false e = false) ∧
      ((false && false) = false) ∧
      runSteps false demoRun =
        [⟨1, RecStatus.success⟩, ⟨2, RecStatus.failure⟩] ∧
      summaryHasErrors (runSteps false demoRun) = true := by
  refine ⟨by decide, rfl, ?_, ?_⟩
  · exact (runSteps_fail_fast false [(1, StepSim.run false false true)]
      (demoRun.drop 2) 2 false (by decide) rfl).1
  · exact (runSteps_fail_fast false [(1, StepSim.run false false true)]
      (demoRun.drop 2) 2 false (by decide) rfl).2

/-- Counterexample to claim C4 as stated: in the demo run the first
execution failure is at step k = 2, yet the Summary holds only one record
before the failure record, not k, because Summary records are only written
for executed steps. -/
theorem runSteps_summary_count_counterexample :
    runSteps false demoRun = [⟨1, RecStatus.success⟩, ⟨2, RecStatus.failure⟩] ∧
      ((runSteps false demoRun).takeWhile
        (fun r => r.status == RecStatus.success)).length = 1 ∧
      (1 : Nat) ≠ 2 := by
  decide

/-- Results of the checks runInstall performs before the step loop:
prerequisite binaries, configuration validation, AWS credential validation,
and pull-secret presence and format. -/
structure PreChecks where
  prereqOk : Bool
  configValid : Bool
  awsCredsOk : Bool
  pullSecretOk : Bool

/-- Outcome of the install command: an os.Exit(1) before the step loop,
tagged with the failing phase, or a completed loop with its Summary and
the non-zero-exit decision derived from it. -/
inductive InstallOutcome where
  | earlyExit (phase : String) : InstallOutcome
  | ran (summary : List StepRecord) (exitNonZero : Bool) : InstallOutcome
deriving DecidableEq

/-- runInstall: the pre-pipeline checks in source order, then the refusal
when the cluster directory already exists, then the step loop; the process
exits non-zero exactly when the Summary has an error record. -/
def runInstall (pc : PreChecks) (cfg : Config) (fs : FS)
    (ss : List (Nat × StepSim)) : InstallOutcome :=
  if !pc.prereqOk then InstallOutcome.earlyExit "prerequisites"
  else if !pc.configValid then InstallOutcome.earlyExit "configuration"
  else if !pc.awsCredsOk then InstallOutcome.earlyExit "aws-credentials"
  else if !pc.pullSecretOk then InstallOutcome.earlyExit "pull-secret"
  else if DirExists fs (GetClusterPath cfg.ClusterName "") then
    InstallOutcome.earlyExit "cluster-dir-exists"
  else
    InstallOutcome.ran (runSteps cfg.ConfirmEachStep ss)
      (summaryHasErrors (runSteps cfg.ConfirmEachStep ss))

/-- Claim C8: when the earlier checks pass and the cluster-scoped directory
already exists, runInstall exits non-zero at the precondition check, before
any step is constructed or executed: the outcome carries no Summary. -/
theorem runInstall_refuses_existing_cluster_dir (pc : PreChecks) (cfg : Config)
    (fs : FS) (ss : List (Nat × StepSim))
    (h1 : pc.prereqOk = true) (h2 : pc.configValid = true)
    (h3 : pc.awsCredsOk = true) (h4 : pc.pullSecretOk = true)
    (hdir : DirExists fs (GetClusterPath cfg.ClusterName "") = true) :
    runInstall pc cfg fs ss = InstallOutcome.earlyExit "cluster-dir-exists" := by
  simp [runInstall, h1, h2, h3, h4, hdir]

/-- A filesystem holding exactly the cluster directory of the demo
cluster. -/
def fsDemoClusterDir : FS :=
  { stat := fun q => if q = GetClusterPath "demo" "" then some true else none
    readDir := fun q => if q = GetClusterPath "demo" "" then some [] else none
    readFile := fun _ => none }

/-- Witness for C8: all pre-checks pass and artifacts/clusters/demo exists,
so the install run stops at the precondition. -/
theorem runInstall_refuses_existing_cluster_dir_witness :
    DirExists fsDemoClusterDir (GetClusterPath cfgDemo.ClusterName "") = true ∧
      runInstall ⟨true, true, true, true⟩ cfgDemo fsDemoClusterDir demoRun =
        InstallOutcome.earlyExit "cluster-dir-exists" :=
  ⟨by decide,
    runInstall_refuses_existing_cluster_dir ⟨true, true, true, true⟩ cfgDemo
      fsDemoClusterDir demoRun rfl rfl rfl rfl (by decide)⟩

/-! Step5SetCredentialsMode from pkg/steps/steps.go. The generic YAML
document yaml.Unmarshal produces is modelled by the YVal type; a Go map is
an association list on which lookup and update are keyed by the string.
The file on disk is identified with its parsed document: yaml.v3 marshals
a given document to one canonical byte sequence (map keys are emitted in
sorted order), and unmarshalling that output returns the same document, so
byte-for-byte equality of the rewritten file follows from equality of the
documents. -/

/-- A generic YAML value as decoded into a Go interface value. -/
inductive YVal where
  | str (s : String) : YVal
  | int (n : Int) : YVal
  | bool (b : Bool) : YVal
  | null : YVal
  | list (items : List YVal) : YVal
  | map (entries : List (String × YVal)) : YVal

/-- Lookup of a key in a Go-map-as-association-list. -/
def getKey : List (String × YVal) → String → Option YVal
  | [], _ => none
  | (k, v) :: rest, key => if k = key then some v else getKey rest key

/-- Update of a key in a Go-map-as-association-list: replace in place when
present, append when absent. -/
def setKey : List (String × YVal) → String → YVal → List (String × YVal)
  | [], key, v => [(key, v)]
  | (k, w) :: rest, key, v =>
    if k = key then (key, v) :: rest else (k, w) :: setKey rest key v

theorem getKey_setKey_self (m : List (String × YVal)) (k : String) (v : YVal) :
    getKey (setKey m k v) k = some v := by
  induction m with
  | nil => simp [setKey, getKey]
  | cons e rest ih =>
    rcases e with ⟨a, b⟩
    by_cases ha : a = k
    · simp [setKey, getKey, ha]
    · simp [setKey, getKey, ha, ih]

theorem getKey_setKey_ne (m : List (String × YVal)) (k : String) (v : YVal)
    (k2 : String) (h : k ≠ k2) : getKey (setKey m k v) k2 = getKey m k2 := by
  induction m with
  | nil => simp [setKey, getKey, h]
  | cons e rest ih =>
    rcases e with ⟨a, b⟩
    by_cases ha : a = k
    · subst ha
      simp [setKey, getKey, h, ih]
    · by_cases ha2 : a = k2
      · simp [setKey, getKey, ha, ha2, Ne.symm h]
      · simp [setKey, getKey, ha, ha2, ih]

theorem setKey_setKey (m : List (String × YVal)) (k : String) (v w : YVal) :
    setKey (setKey m k v) k w = setKey m k w := by
  induction m with
  | nil => simp [setKey]
  | cons e rest ih =>
    rcases e with ⟨a, b⟩
    by_cases ha : a = k
    · simp [setKey, ha]
    · simp [setKey, ha, ih]

theorem setKey_of_getKey_eq (m : List (String × YVal)) (k : String) (v : YVal)
    (h : getKey m k = some v) : setKey m k v = m := by
  induction m with
  | nil => simp [getKey] at h
  | cons e rest ih =>
    rcases e with ⟨a, b⟩
    by_cases ha : a = k
    · subst ha
      simp [getKey] at h
      simp [setKey, h]
    · simp [getKey, ha] at h
      simp [setKey, ha, ih h]

/-- The source condition strings.TrimSpace(s) == (the empty string) holds
exactly when every character of s is white space, which is how the check is
stated here. -/
def isBlank (s : String) : Bool :=
  s.toList.all Char.isWhitespace

/-- The instance type the mutation targets: the configured InstanceType, or
m5.4xlarge when it is blank after trimming, mirroring the desiredType
computation of Step5SetCredentialsMode.Execute. -/
def desiredType (instanceType : String) : String :=
  if isBlank instanceType then "m5.4xlarge" else instanceType

/-- The platform entry of a pool viewed as a map; a missing or non-map
value yields the fresh empty map the source substitutes. -/
def platformOf (pool : List (String × YVal)) : List (String × YVal) :=
  match getKey pool "platform" with
  | some (YVal.map m) => m
  | _ => []

/-- The aws entry of a platform viewed as a map; a missing or non-map value
yields the fresh empty map the source substitutes. -/
def awsOf (platform : List (String × YVal)) : List (String × YVal) :=
  match getKey platform "aws" with
  | some (YVal.map m) => m
  | _ => []

/-- The source condition on the aws map: the type key is absent, or its
interface value compares equal to the empty string. -/
def typeMissingOrEmpty (aws : List (String × YVal)) : Bool :=
  match getKey aws "type" with
  | none => true
  | some (YVal.str s) => s == ""
  | some _ => false

/-- The aws map after the set-only-if-absent-or-empty rule for type. -/
def ensuredAws (desired : String) (aws : List (String × YVal)) :
    List (String × YVal) :=
  if typeMissingOrEmpty aws then setKey aws "type" (YVal.str desired) else aws

/-- The platform map after its aws submap has been ensured. -/
def ensureAws (desired : String) (platform : List (String × YVal)) :
    List (String × YVal) :=
  setKey platform "aws" (YVal.map (ensuredAws desired (awsOf platform)))

/-- The ensurePoolType closure of Step5SetCredentialsMode.Execute: rebuild
the platform.aws.type chain of one machine pool. -/
def ensurePoolType (desired : String) (pool : List (String × YVal)) :
    List (String × YVal) :=
  setKey pool "platform" (YVal.map (ensureAws desired (platformOf pool)))

/-- First mutation of Step5: set credentialsMode to Manual only when the
key is absent. -/
def step5EnsureCredMode (doc : List (String × YVal)) : List (String × YVal) :=
  match getKey doc "credentialsMode" with
  | none => setKey doc "credentialsMode" (YVal.str "Manual")
  | some _ => doc

/-- Second mutation of Step5: ensure the pool type of the controlPlane
entry when it is a map. -/
def step5EnsureControlPlane (desired : String) (doc : List (String × YVal)) :
    List (String × YVal) :=
  match getKey doc "controlPlane" with
  | some (YVal.map cp) => setKey doc "controlPlane" (YVal.map (ensurePoolType desired cp))
  | _ => doc

/-- The per-entry action on the compute list: map-valued pool entries are
ensured, all other entries are left alone. -/
def computeEntry (desired : String) : YVal → YVal
  | YVal.map pool => YVal.map (ensurePoolType desired pool)
  | other => other

/-- Third mutation of Step5: rebuild every pool entry of the compute list
when it is a list. -/
def step5EnsureCompute (desired : String) (doc : List (String × YVal)) :
    List (String × YVal) :=
  match getKey doc "compute" with
  | some (YVal.list comps) =>
    setKey doc "compute" (YVal.list (comps.map (computeEntry desired)))
  | _ => doc

/-- The full document transformation of Step5SetCredentialsMode.Execute, in
source order: credentialsMode, then controlPlane, then compute. -/
def step5Transform (instanceType : String) (doc : List (String × YVal)) :
    List (String × YVal) :=
  step5EnsureCompute (desiredType instanceType)
    (step5EnsureControlPlane (desiredType instanceType) (step5EnsureCredMode doc))

/-- Step5SetCredentialsMode.Execute on the file content: an unreadable file
or a non-map document fails, otherwise the transformed document is written
back. -/
def step5Execute (instanceType : String) : Option YVal → Except String YVal
  | none => Except.error "failed to read install-config.yaml"
  | some (YVal.map doc) => Except.ok (YVal.map (step5Transform instanceType doc))
  | some _ => Except.error "failed to parse install-config.yaml"

theorem desiredType_ne_empty (it : String) : desiredType it ≠ "" := by
  unfold desiredType
  split
  · decide
  · rename_i hne
    intro h
    apply hne
    rw [h]
    rfl

theorem typeMissingOrEmpty_ensuredAws (desired : String) (aws : List (String × YVal))
    (hd : desired ≠ "") : typeMissingOrEmpty (ensuredAws desired aws) = false := by
  unfold ensuredAws
  by_cases h : typeMissingOrEmpty aws = true
  · simp only [h, if_true]
    simp [typeMissingOrEmpty, getKey_setKey_self, hd]
  · simp only [Bool.not_eq_true] at h
    simp [h]

theorem ensuredAws_of_not_missing (desired : String) (aws : List (String × YVal))
    (h : typeMissingOrEmpty aws = false) : ensuredAws desired aws = aws := by
  unfold ensuredAws
  rw [h]
  simp

theorem ensuredAws_idem (desired : String) (aws : List (String × YVal))
    (hd : desired ≠ "") :
    ensuredAws desired (ensuredAws desired aws) = ensuredAws desired aws :=
  ensuredAws_of_not_missing desired _ (typeMissingOrEmpty_ensuredAws desired aws hd)

theorem awsOf_ensureAws (desired : String) (platform : List (String × YVal)) :
    awsOf (ensureAws desired platform) = ensuredAws desired (awsOf platform) := by
  show (match getKey (setKey platform "aws"
      (YVal.map (ensuredAws desired (awsOf platform)))) "aws" with
    | some (YVal.map m) => m
    | _ => []) = ensuredAws desired (awsOf platform)
  rw [getKey_setKey_self]

theorem ensureAws_idem (desired : String) (platform : List (String × YVal))
    (hd : desired ≠ "") :
    ensureAws desired (ensureAws desired platform) = ensureAws desired platform := by
  calc ensureAws desired (ensureAws desired platform)
      = setKey (ensureAws desired platform) "aws"
          (YVal.map (ensuredAws desired (awsOf (ensureAws desired platform)))) := rfl
    _ = setKey (ensureAws desired platform) "aws"
          (YVal.map (ensuredAws desired (awsOf platform))) := by
        rw [awsOf_ensureAws, ensuredAws_idem desired _ hd]
    _ = setKey platform "aws"
          (YVal.map (ensuredAws desired (awsOf platform))) := setKey_setKey _ _ _ _
    _ = ensureAws desired platform := rfl

theorem platformOf_ensurePoolType (desired : String) (pool : List (String × YVal)) :
    platformOf (ensurePoolType desired pool) = ensureAws desired (platformOf pool) := by
  show (match getKey (setKey pool "platform"
      (YVal.map (ensureAws desired (platformOf pool)))) "platform" with
    | some (YVal.map m) => m
    | _ => []) = ensureAws desired (platformOf pool)
  rw [getKey_setKey_self]

theorem ensurePoolType_idem (desired : String) (pool : List (String × YVal))
    (hd : desired ≠ "") :
    ensurePoolType desired (ensurePoolType desired pool) =
      ensurePoolType desired pool := by
  calc ensurePoolType desired (ensurePoolType desired pool)
      = setKey (ensurePoolType desired pool) "platform"
          (YVal.map (ensureAws desired (platformOf (ensurePoolType desired pool)))) := rfl
    _ = setKey (ensurePoolType desired pool) "platform"
          (YVal.map (ensureAws desired (platformOf pool))) := by
        rw [platformOf_ensurePoolType, ensureAws_idem desired _ hd]
    _ = setKey pool "platform"
          (YVal.map (ensureAws desired (platformOf pool))) := setKey_setKey _ _ _ _
    _ = ensurePoolType desired pool := rfl

theorem computeEntry_idem (desired : String) (c : YVal) (hd : desired ≠ "") :
    computeEntry desired (computeEntry desired c) = computeEntry desired c := by
  cases c <;> simp [computeEntry, ensurePoolType_idem desired _ hd]

theorem credMode_present (doc : List (String × YVal)) (v : YVal)
    (h : getKey doc "credentialsMode" = some v) : step5EnsureCredMode doc = doc := by
  unfold step5EnsureCredMode
  rw [h]

theorem credMode_absent (doc : List (String × YVal))
    (h : getKey doc "credentialsMode" = none) :
    step5EnsureCredMode doc = setKey doc "credentialsMode" (YVal.str "Manual") := by
  unfold step5EnsureCredMode
  rw [h]

theorem cp_some (desired : String) (doc : List (String × YVal))
    (cp : List (String × YVal)) (h : getKey doc "controlPlane" = some (YVal.map cp)) :
    step5EnsureControlPlane desired doc =
      setKey doc "controlPlane" (YVal.map (ensurePoolType desired cp)) := by
  unfold step5EnsureControlPlane
  rw [h]

theorem cp_other (desired : String) (doc : List (String × YVal))
    (h : ∀ cp, getKey doc "controlPlane" ≠ some (YVal.map cp)) :
    step5EnsureControlPlane desired doc = doc := by
  unfold step5EnsureControlPlane
  split
  · rename_i cp heq
    exact absurd heq (h cp)
  · rfl

theorem compute_some (desired : String) (doc : List (String × YVal))
    (comps : List YVal) (h : getKey doc "compute" = some (YVal.list comps)) :
    step5EnsureCompute desired doc =
      setKey doc "compute" (YVal.list (comps.map (computeEntry desired))) := by
  unfold step5EnsureCompute
  rw [h]

theorem compute_other (desired : String) (doc : List (String × YVal))
    (h : ∀ comps, getKey doc "compute" ≠ some (YVal.list comps)) :
    step5EnsureCompute desired doc = doc := by
  unfold step5EnsureCompute
  split
  · rename_i comps heq
    exact absurd heq (h comps)
  · rfl

theorem getKey_step5EnsureCredMode_ne (doc : List (String × YVal)) (k : String)
    (h : k ≠ "credentialsMode") :
    getKey (step5EnsureCredMode doc) k = getKey doc k := by
  unfold step5EnsureCredMode
  split
  · rw [getKey_setKey_ne _ _ _ _ (Ne.symm h)]
  · rfl

theorem getKey_step5EnsureControlPlane_ne (desired : String)
    (doc : List (String × YVal)) (k : String) (h : k ≠ "controlPlane") :
    getKey (step5EnsureControlPlane desired doc) k = getKey doc k := by
  unfold step5EnsureControlPlane
  split
  · rw [getKey_setKey_ne _ _ _ _ (Ne.symm h)]
  · rfl

theorem getKey_step5EnsureCompute_ne (desired : String)
    (doc : List (String × YVal)) (k : String) (h : k ≠ "compute") :
    getKey (step5EnsureCompute desired doc) k = getKey doc k := by
  unfold step5EnsureCompute
  split
  · rw [getKey_setKey_ne _ _ _ _ (Ne.symm h)]
  · rfl

theorem step5_credMode_isSome (doc : List (String × YVal)) :
    ∃ v, getKey (step5EnsureCredMode doc) "credentialsMode" = some v := by
  unfold step5EnsureCredMode
  split
  · exact ⟨YVal.str "Manual", getKey_setKey_self _ _ _⟩
  · rename_i v heq
    exact ⟨v, heq⟩

theorem map_computeEntry_idem (desired : String) (comps : List YVal)
    (hd : desired ≠ "") :
    (comps.map (computeEntry desired)).map (computeEntry desired) =
      comps.map (computeEntry desired) := by
  induction comps with
  | nil => rfl
  | cons c rest ih =>
    simp only [List.map_cons, ih, computeEntry_idem desired c hd]

/-- Running the Step5 document transformation twice is the same as running
it once. -/
theorem step5Transform_idem (it : String) (doc : List (String × YVal)) :
    step5Transform it (step5Transform it doc) = step5Transform it doc := by
  have hd : desiredType it ≠ "" := desiredType_ne_empty it
  -- the credentialsMode key survives the later mutations
  obtain ⟨v, hv⟩ := step5_credMode_isSome doc
  have hv2 : getKey (step5Transform it doc) "credentialsMode" = some v := by
    unfold step5Transform
    rw [getKey_step5EnsureCompute_ne _ _ _ (by decide),
      getKey_step5EnsureControlPlane_ne _ _ _ (by decide)]
    exact hv
  have h1 : step5EnsureCredMode (step5Transform it doc) = step5Transform it doc :=
    credMode_present _ v hv2
  -- the controlPlane key of the transformed document
  have key_cp : getKey (step5Transform it doc) "controlPlane" =
      getKey (step5EnsureControlPlane (desiredType it) (step5EnsureCredMode doc))
        "controlPlane" := by
    unfold step5Transform
    exact getKey_step5EnsureCompute_ne _ _ _ (by decide)
  have h2 : step5EnsureControlPlane (desiredType it) (step5Transform it doc) =
      step5Transform it doc := by
    rcases hshape : getKey (step5EnsureCredMode doc) "controlPlane" with _ | val
    · have hB : step5EnsureControlPlane (desiredType it) (step5EnsureCredMode doc) =
          step5EnsureCredMode doc := by
        apply cp_other
        intro cp h
        rw [hshape] at h
        exact Option.noConfusion h
      apply cp_other
      intro cp h
      rw [key_cp, hB, hshape] at h
      exact Option.noConfusion h
    · cases val
      case map cp =>
        have hB : step5EnsureControlPlane (desiredType it) (step5EnsureCredMode doc) =
            setKey (step5EnsureCredMode doc) "controlPlane"
              (YVal.map (ensurePoolType (desiredType it) cp)) :=
          cp_some _ _ _ hshape
        have hget : getKey (step5Transform it doc) "controlPlane" =
            some (YVal.map (ensurePoolType (desiredType it) cp)) := by
          rw [key_cp, hB, getKey_setKey_self]
        rw [cp_some _ _ _ hget, ensurePoolType_idem _ _ hd,
          setKey_of_getKey_eq _ _ _ hget]
      all_goals {
        have hB : step5EnsureControlPlane (desiredType it) (step5EnsureCredMode doc) =
            step5EnsureCredMode doc := by
          apply cp_other
          intro cp h
          rw [hshape] at h
          simp at h
        apply cp_other
        intro cp h
        rw [key_cp, hB, hshape] at h
        simp at h
      }
  -- the compute key of the transformed document
  have h3 : step5EnsureCompute (desiredType it) (step5Transform it doc) =
      step5Transform it doc := by
    rcases hshape : getKey (step5EnsureControlPlane (desiredType it)
        (step5EnsureCredMode doc)) "compute" with _ | val
    · have hT : step5Transform it doc =
          step5EnsureControlPlane (desiredType it) (step5EnsureCredMode doc) := by
        unfold step5Transform
        apply compute_other
        intro comps h
        rw [hshape] at h
        exact Option.noConfusion h
      apply compute_other
      intro comps h
      rw [hT, hshape] at h
      exact Option.noConfusion h
    · cases val
      case list comps =>
        have hT : step5Transform it doc =
            setKey (step5EnsureControlPlane (desiredType it) (step5EnsureCredMode doc))
              "compute"
              (YVal.list (comps.map (computeEntry (desiredType it)))) := by
          unfold step5Transform
          exact compute_some _ _ _ hshape
        have hget : getKey (step5Transform it doc) "compute" =
            some (YVal.list (comps.map (computeEntry (desiredType it)))) := by
          rw [hT, getKey_setKey_self]
        rw [compute_some _ _ _ hget, map_computeEntry_idem _ _ hd,
          setKey_of_getKey_eq _ _ _ hget]
      all_goals {
        have hT : step5Transform it doc =
            step5EnsureControlPlane (desiredType it) (step5EnsureCredMode doc) := by
          unfold step5Transform
          apply compute_other
          intro comps h
          rw [hshape] at h
          simp at h
        apply compute_other
        intro comps h
        rw [hT, hshape] at h
        simp at h
      }
  show step5EnsureCompute (desiredType it)
      (step5EnsureControlPlane (desiredType it)
        (step5EnsureCredMode (step5Transform it doc))) = step5Transform it doc
  rw [h1, h2, h3]

/-- Claim C5: when one run of Step5SetCredentialsMode.Execute succeeds on
an install-config document, a second run on its output succeeds and
reproduces the output unchanged; since yaml.v3 serialization is a function
of the document, the file is byte-for-byte identical after the second
run. -/
theorem step5Execute_idempotent (it : String) (c : Option YVal) (r : YVal)
    (h : step5Execute it c = Except.ok r) :
    step5Execute it (some r) = Except.ok r := by
  cases c with
  | none => exact Except.noConfusion h
  | some v =>
    cases v
    case map doc =>
      simp only [step5Execute, Except.ok.injEq] at h
      subst h
      simp only [step5Execute, Except.ok.injEq, YVal.map.injEq]
      exact step5Transform_idem it doc
    all_goals simp [step5Execute] at h

/-- A demo install-config document: no credentialsMode, a control plane
pool and one compute pool, both without a platform entry. -/
def demoDoc : List (String × YVal) :=
  [("apiVersion", YVal.str "v1"),
    ("baseDomain", YVal.str "example.com"),
    ("controlPlane", YVal.map [("name", YVal.str "master")]),
    ("compute", YVal.list [YVal.map [("name", YVal.str "worker")]])]

/-- The demo document after one run of the Step5 mutation: the pools gain
platform.aws.type and credentialsMode is appended. -/
def demoDocDone : List (String × YVal) :=
  [("apiVersion", YVal.str "v1"),
    ("baseDomain", YVal.str "example.com"),
    ("controlPlane", YVal.map [("name", YVal.str "master"),
      ("platform", YVal.map [("aws", YVal.map [("type", YVal.str "m5.4xlarge")])])]),
    ("compute", YVal.list [YVal.map [("name", YVal.str "worker"),
      ("platform", YVal.map [("aws", YVal.map [("type", YVal.str "m5.4xlarge")])])]]),
    ("credentialsMode", YVal.str "Manual")]

/-- Witness for C5: the first run on the demo document succeeds with the
expected literal output and the second run reproduces it. -/
theorem step5Execute_idempotent_witness :
    step5Execute "m5.4xlarge" (some (YVal.map demoDoc)) =
        Except.ok (YVal.map demoDocDone) ∧
      step5Execute "m5.4xlarge" (some (YVal.map demoDocDone)) =
        Except.ok (YVal.map demoDocDone) :=
  ⟨rfl, step5Execute_idempotent "m5.4xlarge" (some (YVal.map demoDoc))
    (YVal.map demoDocDone) rfl⟩

/-- The platform.aws.type value of a machine pool, as the source reads it
through the two map assertions. -/
def poolTypeOf (pool : List (String × YVal)) : Option YVal :=
  getKey (awsOf (platformOf pool)) "type"

theorem typeMissingOrEmpty_eq_false_of (aws : List (String × YVal)) (v : YVal)
    (h : getKey aws "type" = some v) (hv : v ≠ YVal.str "") :
    typeMissingOrEmpty aws = false := by
  unfold typeMissingOrEmpty
  rw [h]
  cases v
  case str s =>
    simp only [beq_eq_false_iff_ne, ne_eq]
    intro hs
    apply hv
    rw [hs]
  all_goals rfl

/-- ensurePoolType keeps a present, non-empty type value unchanged. -/
theorem poolTypeOf_ensurePoolType_present (desired : String)
    (pool : List (String × YVal)) (v : YVal)
    (h : poolTypeOf pool = some v) (hv : v ≠ YVal.str "") :
    poolTypeOf (ensurePoolType desired pool) = some v := by
  unfold poolTypeOf at h ⊢
  rw [platformOf_ensurePoolType, awsOf_ensureAws,
    ensuredAws_of_not_missing desired _ (typeMissingOrEmpty_eq_false_of _ v h hv)]
  exact h

/-- ensurePoolType fills in the desired type when it is absent or the
empty string. -/
theorem poolTypeOf_ensurePoolType_missing (desired : String)
    (pool : List (String × YVal))
    (h : poolTypeOf pool = none ∨ poolTypeOf pool = some (YVal.str "")) :
    poolTypeOf (ensurePoolType desired pool) = some (YVal.str desired) := by
  have hmiss : typeMissingOrEmpty (awsOf (platformOf pool)) = true := by
    unfold typeMissingOrEmpty
    unfold poolTypeOf at h
    rcases h with h | h <;> rw [h]
    rfl
  unfold poolTypeOf
  rw [platformOf_ensurePoolType, awsOf_ensureAws]
  unfold ensuredAws
  rw [hmiss]
  simp only [if_true]
  exact getKey_setKey_self _ _ _

/-- Claim C6 amended: the Step5 mutation sets credentialsMode only when it
is absent, leaves every top-level key other than credentialsMode,
controlPlane and compute untouched, rebuilds controlPlane and the compute
entries through ensurePoolType, and ensurePoolType fills platform.aws.type
only when it is absent or present as the empty string, never overwriting a
present non-empty value, while leaving the other pool keys unchanged. -/
theorem step5_mutation_frame (it : String) (doc : List (String × YVal)) :
    (∀ v, getKey doc "credentialsMode" = some v →
        getKey (step5Transform it doc) "credentialsMode" = some v) ∧
      (getKey doc "credentialsMode" = none →
        getKey (step5Transform it doc) "credentialsMode" = some (YVal.str "Manual")) ∧
      (∀ k, k ≠ "credentialsMode" → k ≠ "controlPlane" → k ≠ "compute" →
        getKey (step5Transform it doc) k = getKey doc k) ∧
      (∀ cp, getKey doc "controlPlane" = some (YVal.map cp) →
        getKey (step5Transform it doc) "controlPlane" =
          some (YVal.map (ensurePoolType (desiredType it) cp))) ∧
      (∀ comps, getKey doc "compute" = some (YVal.list comps) →
        getKey (step5Transform it doc) "compute" =
          some (YVal.list (comps.map (computeEntry (desiredType it))))) ∧
      (∀ pool v, poolTypeOf pool = some v → v ≠ YVal.str "" →
        poolTypeOf (ensurePoolType (desiredType it) pool) = some v) ∧
      (∀ pool, poolTypeOf pool = none ∨ poolTypeOf pool = some (YVal.str "") →
        poolTypeOf (ensurePoolType (desiredType it) pool) =
          some (YVal.str (desiredType it))) ∧
      (∀ pool k, k ≠ "platform" →
        getKey (ensurePoolType (desiredType it) pool) k = getKey pool k) := by
  refine ⟨?_, ?_, ?_, ?_, ?_, ?_, ?_, ?_⟩
  · intro v hv
    unfold step5Transform
    rw [getKey_step5EnsureCompute_ne _ _ _ (by decide),
      getKey_step5EnsureControlPlane_ne _ _ _ (by decide),
      credMode_present _ v hv]
    exact hv
  · intro hn
    unfold step5Transform
    rw [getKey_step5EnsureCompute_ne _ _ _ (by decide),
      getKey_step5EnsureControlPlane_ne _ _ _ (by decide),
      credMode_absent _ hn, getKey_setKey_self]
  · intro k h1 h2 h3
    unfold step5Transform
    rw [getKey_step5EnsureCompute_ne _ _ _ h3,
      getKey_step5EnsureControlPlane_ne _ _ _ h2,
      getKey_step5EnsureCredMode_ne _ _ h1]
  · intro cp hcp
    have hA : getKey (step5EnsureCredMode doc) "controlPlane" = some (YVal.map cp) := by
      rw [getKey_step5EnsureCredMode_ne _ _ (by decide)]
      exact hcp
    unfold step5Transform
    rw [getKey_step5EnsureCompute_ne _ _ _ (by decide),
      cp_some _ _ _ hA, getKey_setKey_self]
  · intro comps hcm
    have hB : getKey (step5EnsureControlPlane (desiredType it)
        (step5EnsureCredMode doc)) "compute" = some (YVal.list comps) := by
      rw [getKey_step5EnsureControlPlane_ne _ _ _ (by decide),
        getKey_step5EnsureCredMode_ne _ _ (by decide)]
      exact hcm
    unfold step5Transform
    rw [compute_some _ _ _ hB, getKey_setKey_self]
  · intro pool v h hv
    exact poolTypeOf_ensurePoolType_present _ pool v h hv
  · intro pool h
    exact poolTypeOf_ensurePoolType_missing _ pool h
  · intro pool k hk
    unfold ensurePoolType
    exact getKey_setKey_ne _ _ _ _ (Ne.symm hk)

/-- The platform.aws.type value under the controlPlane key of a document,
when present. -/
def docControlPlaneType (doc : List (String × YVal)) : Option YVal :=
  match getKey doc "controlPlane" with
  | some (YVal.map cp) => poolTypeOf cp
  | _ => none

/-- A document whose control plane carries a present but empty
platform.aws.type value. -/
def docEmptyType : List (String × YVal) :=
  [("credentialsMode", YVal.str "Manual"),
    ("controlPlane", YVal.map
      [("platform", YVal.map [("aws", YVal.map [("type", YVal.str "")])])])]

/-- Counterexample to claim C6 as stated: the sizing field of docEmptyType
is present (the empty string), yet the mutation replaces it, so the step
does not set the field only when absent. -/
theorem step5_overwrites_present_empty_type :
    docControlPlaneType docEmptyType = some (YVal.str "") ∧
      docControlPlaneType (step5Transform "m5.2xlarge" docEmptyType) =
        some (YVal.str "m5.2xlarge") ∧
      YVal.str "m5.2xlarge" ≠ YVal.str "" := by
  refine ⟨rfl, rfl, ?_⟩
  simp

/-- A machine pool with an explicit non-default instance size. -/
def poolBigType : List (String × YVal) :=
  [("platform", YVal.map [("aws", YVal.map [("type", YVal.str "m5.8xlarge")])])]

/-- Witness for the amended C6: a pool with the explicit non-default size
m5.8xlarge keeps it across the mutation aimed at m5.4xlarge. -/
theorem step5_mutation_frame_witness :
    poolTypeOf poolBigType = some (YVal.str "m5.8xlarge") ∧
      poolTypeOf (ensurePoolType (desiredType "m5.4xlarge") poolBigType) =
        some (YVal.str "m5.8xlarge") := by
  refine ⟨rfl, ?_⟩
  exact (step5_mutation_frame "m5.4xlarge" demoDoc).2.2.2.2.2.1 poolBigType
    (YVal.str "m5.8xlarge") rfl (by simp)

/-- Witness for C9 at a concrete filesystem whose install-config content is
exactly the marker string. -/
theorem fileContains_whole_content_witness :
    ("credentialsMode: Manual" ≠ "") ∧
      fsMarkerOnly.readFile (GetInstallConfigPath "4.12.0-x86_64" "demo") =
        some "credentialsMode: Manual" ∧
      cfgDemo.StartFromStep ≤ 0 ∧
      FileContains fsMarkerOnly (GetInstallConfigPath "4.12.0-x86_64" "demo")
          "credentialsMode: Manual" = false ∧
      ShouldSkipStep cfgDemo "4.12.0-x86_64" fsMarkerOnly 5 = false := by
  refine ⟨by decide, by decide, by decide, ?_, ?_⟩
  · exact (fileContains_whole_content fsMarkerOnly cfgDemo "4.12.0-x86_64"
      (GetInstallConfigPath "4.12.0-x86_64" "demo") "credentialsMode: Manual"
      (by decide) (by decide) (by decide) (by decide)).1
  · exact (fileContains_whole_content fsMarkerOnly cfgDemo "4.12.0-x86_64"
      (GetInstallConfigPath "4.12.0-x86_64" "demo") "credentialsMode: Manual"
      (by decide) (by decide) (by decide) (by decide)).2

end StsWrapper
